import Mathlib

/-!
Verification of the Order Allocation & Settlement Engine of the memoshop
Telegram bot (`main.py`).

The SQLite store is embedded shallowly: each table becomes a list of
records, kept in insertion order (SQLite rowid order, which the code
relies on when it selects `order_applications` without an ORDER BY — the
implicit rowid is the monotonic sequence number assigned at insert time).
`REAL` money columns are embedded as exact rationals (`ℚ`); the Python
literal `0.2` is the rational `1/5`.  Worker rows are keyed by a single
numeric id (the code's `escorts.id` / `telegram_id` pair is collapsed to
one key; no claim distinguishes the two).  Each handler below is the
database portion of the corresponding `main.py` handler, with the
Telegram transport stripped: message sends become result constructors.
-/

namespace MemoBot

inductive OrderStatus
  | pending
  | inProgress
  | completed
deriving DecidableEq, Repr

/-- Row of `escorts` (the worker table): columns in the order of
`get_escort`'s SELECT. -/
structure Escort where
  escort_id : Nat
  squad_id : Option Nat
  pubg_id : Option String
  balance : ℚ
  reputation : Int
  completed_orders : Nat
  username : String
  rating : ℚ
  rating_count : Nat
  is_banned : Bool
  ban_until : Option Int
  restrict_until : Option Int
  rules_accepted : Bool
deriving DecidableEq, Repr

/-- Row of `squads`. -/
structure Squad where
  squad_id : Nat
  rating : ℚ
  rating_count : Nat
deriving DecidableEq, Repr

/-- Row of `orders`. -/
structure Order where
  order_id : Nat
  amount : ℚ
  commission_amount : ℚ
  status : OrderStatus
  squad_id : Option Nat
  completed_at : Option Int
  rating : Nat
deriving DecidableEq, Repr

/-- Row of `order_applications`: the squad id and PUBG id are snapshots
taken at apply time. -/
structure Application where
  order_id : Nat
  escort_id : Nat
  squad_id : Nat
  pubg_id : String
deriving DecidableEq, Repr

/-- Row of `order_escorts` (assignments). -/
structure Assignment where
  order_id : Nat
  escort_id : Nat
  pubg_id : Option String
deriving DecidableEq, Repr

/-- Row of `payouts`. -/
structure Payout where
  order_id : Nat
  escort_id : Nat
  amount : ℚ
deriving DecidableEq, Repr

/-- The whole database.  Every list is in rowid (insertion) order. -/
structure Store where
  escorts : List Escort
  squads : List Squad
  orders : List Order
  applications : List Application
  assignments : List Assignment
  payouts : List Payout
deriving DecidableEq, Repr

/-- `SELECT ... FROM escorts WHERE telegram_id = ?` -/
def findEscort (s : Store) (uid : Nat) : Option Escort :=
  s.escorts.find? (fun e => e.escort_id == uid)

/-- `SELECT ... FROM orders WHERE id = ?` (also stands for the lookup by
`memo_order_id`, the unique external key collapsed with the row id). -/
def findOrder (s : Store) (oid : Nat) : Option Order :=
  s.orders.find? (fun o => o.order_id == oid)

/-- `SELECT ... FROM order_applications WHERE order_id = ?`, rowid order. -/
def appsOf (s : Store) (oid : Nat) : List Application :=
  s.applications.filter (fun a => a.order_id == oid)

/-- Number of live applications of an order. -/
def countApps (s : Store) (oid : Nat) : Nat :=
  (appsOf s oid).length

/-- `SELECT COUNT(*) FROM order_applications WHERE order_id = ? AND escort_id = ?`
compared against 0. -/
def hasApplied (s : Store) (oid uid : Nat) : Bool :=
  s.applications.any (fun a => a.order_id == oid && a.escort_id == uid)

/-- Membership in `order_escorts` for an (order, worker) pair. -/
def hasAssignment (s : Store) (oid uid : Nat) : Bool :=
  s.assignments.any (fun a => a.order_id == oid && a.escort_id == uid)

/-- `SELECT COUNT(*) FROM payouts WHERE order_id = ? AND escort_id = ?`
compared against 0. -/
def paysFor (s : Store) (oid uid : Nat) : Bool :=
  s.payouts.any (fun p => p.order_id == oid && p.escort_id == uid)

/-- Sum of recorded payout amounts of one order. -/
def sumPayouts (s : Store) (oid : Nat) : ℚ :=
  ((s.payouts.filter (fun p => p.order_id == oid)).map Payout.amount).sum

/-- Current PUBG id of a worker, read fresh from `escorts`
(`SELECT pubg_id FROM escorts WHERE id = ?`). -/
def pubgOf (es : List Escort) (uid : Nat) : Option String :=
  (es.find? (fun e => e.escort_id == uid)).bind Escort.pubg_id

/-- Update the records of a list that satisfy `p` with `g`. -/
def mapWhere {α : Type} (p : α → Bool) (g : α → α) (l : List α) : List α :=
  l.map (fun a => if p a then g a else a)

/-- `check_access` (main.py 484-511): the four denial tests, in the
code's order — the `is_banned` flag first, then `ban_until` against the
clock, then `restrict_until`, then the rules gate (only on `/start`).
Profile auto-creation is outside the embedded store logic; the worker
row is a parameter. -/
def check_access (e : Escort) (now : Int) (initial_start : Bool) : Bool :=
  if e.is_banned then false
  else if (match e.ban_until with
           | some t => decide (t > now)
           | none => false) then false
  else if (match e.restrict_until with
           | some t => decide (t > now)
           | none => false) then false
  else if !e.rules_accepted && initial_start then false
  else true

/-- `process_ban_permanent` (main.py 1853-1883), the UPDATE:
`SET is_banned = 1, ban_until = NULL`. -/
def process_ban_permanent (e : Escort) : Escort :=
  { e with is_banned := true, ban_until := none }

/-- `process_ban_duration` (main.py 1899-1942), the UPDATE:
`SET is_banned = 1, ban_until = now + days` (the timestamp is passed in
already computed, as the code computes `datetime.now() + timedelta`). -/
def process_ban_duration (e : Escort) (ban_until : Int) : Escort :=
  { e with is_banned := true, ban_until := some ban_until }

inductive JoinResult
  | profileNotFound
  | missingPubgId
  | notInSquad
  | orderNotFound
  | orderNotPending
  | alreadyApplied
  | poolFull
  | joined
deriving DecidableEq, Repr

/-- `join_order` (main.py 1097-1183), the callback behind the "apply"
button.  NOTE: unlike the chat-menu handlers, this callback performs no
`check_access` call; the checks below are everything the code does
before the INSERT. -/
def join_order (s : Store) (uid : Nat) (order_db_id : Nat) : JoinResult × Store :=
  match findEscort s uid with
  | none => (.profileNotFound, s)
  | some e =>
    match e.pubg_id with
    | none => (.missingPubgId, s)
    | some pid =>
      match e.squad_id with
      | none => (.notInSquad, s)
      | some sq =>
        match findOrder s order_db_id with
        | none => (.orderNotFound, s)
        | some o =>
          if o.status ≠ .pending then (.orderNotPending, s)
          else if hasApplied s order_db_id uid then (.alreadyApplied, s)
          else if countApps s order_db_id ≥ 4 then (.poolFull, s)
          else (.joined,
            { s with applications :=
                s.applications ++ [⟨order_db_id, e.escort_id, sq, pid⟩] })

/-- `UPDATE escorts SET completed_orders = completed_orders + 1 WHERE id = ?` -/
def bumpCompleted (es : List Escort) (i : Nat) : List Escort :=
  mapWhere (fun e => e.escort_id == i)
    (fun e => { e with completed_orders := e.completed_orders + 1 }) es

/-- The loop body of `start_order`'s assignment loop: read the escort's
current `pubg_id`, INSERT the `order_escorts` row, and increment the
escort's `completed_orders`. -/
def startApply (oid : Nat) (acc : List Escort × List Assignment)
    (ap : Application) : List Escort × List Assignment :=
  (bumpCompleted acc.1 ap.escort_id,
   acc.2 ++ [⟨oid, ap.escort_id, pubgOf acc.1 ap.escort_id⟩])

inductive StartResult
  | notInSquad
  | orderNotFound
  | orderNotPending
  | insufficientSquadMembers
  | started
deriving DecidableEq, Repr

/-- `start_order` (main.py 1185-1302): pick the winning squad from the
first application row (rowid order), filter, commit assignments,
commission and status, delete every application of the order. -/
def start_order (s : Store) (uid : Nat) (order_db_id : Nat) : StartResult × Store :=
  match findEscort s uid with
  | none => (.notInSquad, s)
  | some e =>
    match e.squad_id with
    | none => (.notInSquad, s)
    | some _ =>
      match findOrder s order_db_id with
      | none => (.orderNotFound, s)
      | some o =>
        if o.status ≠ .pending then (.orderNotPending, s)
        else
          match appsOf s order_db_id with
          | [] => (.insufficientSquadMembers, s)
          | a :: rest =>
            if (a :: rest).length < 2 ∨ (a :: rest).length > 4 then
              (.insufficientSquadMembers, s)
            else
              if ((a :: rest).filter (fun ap => ap.squad_id == a.squad_id)).length < 2 then
                (.insufficientSquadMembers, s)
              else
                let valid := (a :: rest).filter (fun ap => ap.squad_id == a.squad_id)
                let p := valid.foldl (startApply order_db_id) (s.escorts, s.assignments)
                let orders' := mapWhere (fun o' => o'.order_id == order_db_id)
                  (fun o' => { o' with
                    status := .inProgress,
                    squad_id := some a.squad_id,
                    commission_amount := o.amount * (1/5) })
                  s.orders
                let apps' := s.applications.filter (fun ap => !(ap.order_id == order_db_id))
                (.started,
                  { s with escorts := p.1, assignments := p.2,
                           orders := orders', applications := apps' })

inductive CancelResult
  | orderNotFound
  | orderAlreadyStarted
  | canceled
deriving DecidableEq, Repr

/-- `cancel_order` (main.py 1373-1399): delete all applications of a
still-pending order. -/
def cancel_order (s : Store) (order_db_id : Nat) : CancelResult × Store :=
  match findOrder s order_db_id with
  | none => (.orderNotFound, s)
  | some o =>
    if o.status ≠ .pending then (.orderAlreadyStarted, s)
    else
      let apps' := s.applications.filter (fun ap => !(ap.order_id == order_db_id))
      (.canceled, { s with applications := apps' })

inductive CompleteResult
  | profileNotFound
  | orderNotFound
  | orderAlreadyCompleted
  | done
deriving DecidableEq, Repr

/-- `process_complete_order` (main.py 769-826) and the identical database
logic of `complete_order_callback` (main.py 1304-1371): look the order up
by its id, require `in_progress`, then set `status = completed` and
`completed_at = now`.  NOTE: neither handler checks that the calling
worker holds an `order_escorts` row on the order. -/
def process_complete_order (s : Store) (uid : Nat) (order_db_id : Nat)
    (now : Int) : CompleteResult × Store :=
  match findEscort s uid with
  | none => (.profileNotFound, s)
  | some _ =>
    match findOrder s order_db_id with
    | none => (.orderNotFound, s)
    | some o =>
      if o.status ≠ .inProgress then (.orderAlreadyCompleted, s)
      else
        let orders' := mapWhere (fun o' => o'.order_id == order_db_id)
          (fun o' => { o' with status := .completed, completed_at := some now })
          s.orders
        (.done, { s with orders := orders' })

inductive RateResult
  | notFoundOrNotCompleted
  | rated
deriving DecidableEq, Repr

/-- The body of `update_escort_reputation` (main.py 306-317):
`reputation += r, rating += r, rating_count += 1`. -/
def update_escort_reputation (es : List Escort) (eid : Nat) (r : Nat) : List Escort :=
  mapWhere (fun e => e.escort_id == eid)
    (fun e => { e with
      reputation := e.reputation + r,
      rating := e.rating + r,
      rating_count := e.rating_count + 1 }) es

/-- `update_squad_reputation` (main.py 319-330). -/
def update_squad_reputation (sq : List Squad) (sid : Nat) (r : Nat) : List Squad :=
  mapWhere (fun q => q.squad_id == sid)
    (fun q => { q with rating := q.rating + r, rating_count := q.rating_count + 1 }) sq

/-- `rate_order_callback` (main.py 890-936): the SELECT requires the
order to be `completed` and the rater to hold an `order_escorts` row —
but, unlike the chat-menu query of `process_rate_order`, it does NOT
require `o.rating = 0`.  Each assignee's reputation is bumped, the
squad's likewise, and `orders.rating` is overwritten. -/
def rate_order_callback (s : Store) (uid : Nat) (order_db_id : Nat)
    (stars : Nat) : RateResult × Store :=
  match findOrder s order_db_id with
  | none => (.notFoundOrNotCompleted, s)
  | some o =>
    if o.status ≠ .completed then (.notFoundOrNotCompleted, s)
    else if !hasAssignment s order_db_id uid then (.notFoundOrNotCompleted, s)
    else
      let rows := s.assignments.filter (fun a => a.order_id == order_db_id)
      let escorts' := rows.foldl
        (fun es a => update_escort_reputation es a.escort_id stars) s.escorts
      let squads' := match o.squad_id with
        | some sid => update_squad_reputation s.squads sid stars
        | none => s.squads
      let orders' := mapWhere (fun o' => o'.order_id == order_db_id)
        (fun o' => { o' with rating := stars }) s.orders
      (.rated, { s with escorts := escorts', squads := squads', orders := orders' })

inductive PayoutResult
  | profileNotFound
  | notFoundOrNotCompleted
  | alreadyPaidOut
  | paid
deriving DecidableEq, Repr

/-- `process_payout_request` (main.py 988-1072): the SELECT joins
`order_escorts`, so the worker must hold an assignment and the order must
be `completed`; then a `payouts` row for the pair blocks a repeat.  The
commission is recomputed as `amount * 0.2` (the stored
`commission_amount` is not read; it is overwritten), the payout is
`amount - commission`, inserted and credited to the balance. -/
def process_payout_request (s : Store) (uid : Nat) (order_db_id : Nat) :
    PayoutResult × Store :=
  match findEscort s uid with
  | none => (.profileNotFound, s)
  | some _ =>
    match findOrder s order_db_id with
    | none => (.notFoundOrNotCompleted, s)
    | some o =>
      if o.status ≠ .completed then (.notFoundOrNotCompleted, s)
      else if !hasAssignment s order_db_id uid then (.notFoundOrNotCompleted, s)
      else if paysFor s order_db_id uid then (.alreadyPaidOut, s)
      else
        let commission := o.amount * (1/5)
        let payout_amount := o.amount - commission
        let escorts' := mapWhere (fun e => e.escort_id == uid)
          (fun e => { e with balance := e.balance + payout_amount }) s.escorts
        let orders' := mapWhere (fun o' => o'.order_id == order_db_id)
          (fun o' => { o' with commission_amount := commission }) s.orders
        (.paid,
          { s with payouts := s.payouts ++ [⟨order_db_id, uid, payout_amount⟩],
                   escorts := escorts', orders := orders' })

/-- One worker-facing mutating call of the engine. -/
inductive Op
  | join (uid order_db_id : Nat)
  | start (uid order_db_id : Nat)
  | cancel (order_db_id : Nat)
  | complete (uid order_db_id : Nat) (now : Int)
  | payout (uid order_db_id : Nat)
  | rate (uid order_db_id stars : Nat)
deriving DecidableEq, Repr

def applyOp (s : Store) : Op → Store
  | .join uid oid => (join_order s uid oid).2
  | .start uid oid => (start_order s uid oid).2
  | .cancel oid => (cancel_order s oid).2
  | .complete uid oid now => (process_complete_order s uid oid now).2
  | .payout uid oid => (process_payout_request s uid oid).2
  | .rate uid oid stars => (rate_order_callback s uid oid stars).2

/-- Replay of an ordered call sequence. -/
def run (s : Store) (ops : List Op) : Store :=
  ops.foldl applyOp s

/-- The winning squad an order would get: the squad id snapshot of the
chronologically first live application. -/
def winningSquad (s : Store) (oid : Nat) : Option Nat :=
  match appsOf s oid with
  | [] => none
  | a :: _ => some a.squad_id

/-- `completed_orders` of a worker, as an optional lookup. -/
def completedOf (es : List Escort) (uid : Nat) : Option Nat :=
  (es.find? (fun e => e.escort_id == uid)).map Escort.completed_orders

/-- Worker A: member of squad 1, PUBG id set. -/
def wA : Escort := ⟨1, some 1, some "pA", 0, 0, 0, "A", 0, 0, false, none, none, true⟩

/-- Worker B: member of squad 1. -/
def wB : Escort := ⟨2, some 1, some "pB", 0, 0, 0, "B", 0, 0, false, none, none, true⟩

/-- Worker C: member of squad 2. -/
def wC : Escort := ⟨3, some 2, some "pC", 0, 0, 0, "C", 0, 0, false, none, none, true⟩

/-- Worker D: permanently banned (`is_banned = 1`, `ban_until = NULL`),
but in a squad and with a PUBG id. -/
def wD : Escort := ⟨4, some 1, some "pD", 0, 0, 0, "D", 0, 0, true, none, none, true⟩

/-- Base demo store: order 1 pending with amount 1000, two squads,
workers A-D, no applications yet. -/
def demoStore : Store :=
  { escorts := [wA, wB, wC, wD],
    squads := [⟨1, 0, 0⟩, ⟨2, 0, 0⟩],
    orders := [⟨1, 1000, 0, .pending, none, none, 0⟩],
    applications := [], assignments := [], payouts := [] }

/-- A, B and C have applied to order 1 (in that chronological order). -/
def demoApplied : Store :=
  (join_order (join_order (join_order demoStore 1 1).2 2 1).2 3 1).2

/-- After `start_order` by A: squad 1 wins, A and B are assigned. -/
def demoStarted : Store := (start_order demoApplied 1 1).2

/-- After A completed order 1 at time 50. -/
def demoCompleted : Store := (process_complete_order demoStarted 1 1 50).2

/-- After A requested and received the payout for order 1. -/
def demoPaidA : Store := (process_payout_request demoCompleted 1 1).2

/-- After B also requested and received the payout for order 1. -/
def demoPaidB : Store := (process_payout_request demoPaidA 2 1).2

/-- After A rated order 1 with 3 stars. -/
def demoRated : Store := (rate_order_callback demoCompleted 1 1 3).2

/-- A store whose completed order 1 carries a stored `commission_amount`
of 300 that differs from `0.20 × amount = 200`; worker A is assigned and
unpaid. -/
def oddCommissionStore : Store :=
  { escorts := [wA],
    squads := [⟨1, 0, 0⟩],
    orders := [⟨1, 1000, 300, .completed, some 1, some 50, 0⟩],
    applications := [], assignments := [⟨1, 1, some "pA"⟩], payouts := [] }

lemma find?_mapWhere {α : Type} (p : α → Bool) (g : α → α) (q : α → Bool)
    (l : List α) (hg : ∀ a, q (g a) = q a) :
    (mapWhere p g l).find? q = (l.find? q).map (fun a => if p a then g a else a) := by
  unfold mapWhere
  rw [List.find?_map]
  have hq : (q ∘ fun a => if p a then g a else a) = q := by
    funext a
    by_cases h : p a <;> simp [h, hg]
  rw [hq]

lemma cancel_order_applications (s : Store) (oid : Nat) :
    (cancel_order s oid).2.applications = s.applications ∨
    (cancel_order s oid).2.applications =
      s.applications.filter (fun ap => !(ap.order_id == oid)) := by
  unfold cancel_order
  split
  · exact Or.inl rfl
  · split
    · exact Or.inl rfl
    · exact Or.inr rfl

lemma start_order_applications (s : Store) (uid oid : Nat) :
    (start_order s uid oid).2.applications = s.applications ∨
    (start_order s uid oid).2.applications =
      s.applications.filter (fun ap => !(ap.order_id == oid)) := by
  unfold start_order
  split
  · exact Or.inl rfl
  · split
    · exact Or.inl rfl
    · split
      · exact Or.inl rfl
      · split
        · exact Or.inl rfl
        · split
          · exact Or.inl rfl
          · split
            · exact Or.inl rfl
            · split
              · exact Or.inl rfl
              · exact Or.inr rfl

lemma process_complete_order_applications (s : Store) (uid oid : Nat) (now : Int) :
    (process_complete_order s uid oid now).2.applications = s.applications := by
  unfold process_complete_order
  split
  · rfl
  · split
    · rfl
    · split
      · rfl
      · rfl

lemma process_payout_request_applications (s : Store) (uid oid : Nat) :
    (process_payout_request s uid oid).2.applications = s.applications := by
  unfold process_payout_request
  split
  · rfl
  · split
    · rfl
    · split
      · rfl
      · split
        · rfl
        · split
          · rfl
          · rfl

lemma rate_order_callback_applications (s : Store) (uid oid stars : Nat) :
    (rate_order_callback s uid oid stars).2.applications = s.applications := by
  unfold rate_order_callback
  split
  · rfl
  · split
    · rfl
    · split
      · rfl
      · rfl

/-- A successful `join_order` under the code's preconditions: the exact
result and the new store. -/
lemma join_order_eq_joined (s : Store) (uid oid : Nat) (e : Escort)
    (sq : Nat) (pid : String)
    (h1 : findEscort s uid = some e) (h2 : e.pubg_id = some pid)
    (h3 : e.squad_id = some sq)
    (o : Order) (h4 : findOrder s oid = some o) (h5 : o.status = .pending)
    (h6 : hasApplied s oid uid = false) (h7 : countApps s oid < 4) :
    join_order s uid oid = (.joined,
      { s with applications := s.applications ++ [⟨oid, e.escort_id, sq, pid⟩] }) := by
  simp only [join_order, h1, h2, h3, h4, h5, h6]
  rw [if_neg (by simp), if_neg (by simp [h6]), if_neg (by omega)]

lemma join_order_not_joined (s : Store) (uid oid : Nat)
    (h : (join_order s uid oid).1 ≠ .joined) :
    (join_order s uid oid).2 = s := by
  have hmain : ∀ rJ, join_order s uid oid = rJ → rJ.1 ≠ .joined → rJ.2 = s := by
    intro rJ hr hj
    rw [join_order] at hr
    rcases h1 : findEscort s uid with _ | e <;> simp only [h1] at hr
    · rw [← hr]
    rcases h2 : e.pubg_id with _ | pid <;> simp only [h2] at hr
    · rw [← hr]
    rcases h3 : e.squad_id with _ | sq <;> simp only [h3] at hr
    · rw [← hr]
    rcases h4 : findOrder s oid with _ | o <;> simp only [h4] at hr
    · rw [← hr]
    by_cases h5 : o.status ≠ .pending
    · rw [if_pos h5] at hr; rw [← hr]
    rw [if_neg h5] at hr
    by_cases h6 : hasApplied s oid uid
    · rw [if_pos h6] at hr; rw [← hr]
    rw [if_neg h6] at hr
    by_cases h7 : countApps s oid ≥ 4
    · rw [if_pos h7] at hr; rw [← hr]
    rw [if_neg h7] at hr
    rw [← hr] at hj
    exact absurd rfl hj
  exact hmain (join_order s uid oid) rfl h

/-- Inversion of a successful `join_order`: every precondition of the
code held, and the new store is the old one with exactly one new
application row appended. -/
lemma join_order_joined (s : Store) (uid oid : Nat)
    (h : (join_order s uid oid).1 = .joined) :
    ∃ e sq pid, findEscort s uid = some e ∧ e.pubg_id = some pid ∧
      e.squad_id = some sq ∧
      (∃ o, findOrder s oid = some o ∧ o.status = .pending) ∧
      hasApplied s oid uid = false ∧ countApps s oid < 4 ∧
      (join_order s uid oid).2.applications =
        s.applications ++ [⟨oid, e.escort_id, sq, pid⟩] := by
  have hmain : ∀ rJ, join_order s uid oid = rJ → rJ.1 = .joined →
      ∃ e sq pid, findEscort s uid = some e ∧ e.pubg_id = some pid ∧
        e.squad_id = some sq ∧
        (∃ o, findOrder s oid = some o ∧ o.status = .pending) ∧
        hasApplied s oid uid = false ∧ countApps s oid < 4 ∧
        rJ.2.applications = s.applications ++ [⟨oid, e.escort_id, sq, pid⟩] := by
    intro rJ hr hj
    rw [join_order] at hr
    rcases h1 : findEscort s uid with _ | e <;> simp only [h1] at hr
    · rw [← hr] at hj; exact absurd hj (by simp)
    rcases h2 : e.pubg_id with _ | pid <;> simp only [h2] at hr
    · rw [← hr] at hj; exact absurd hj (by simp)
    rcases h3 : e.squad_id with _ | sq <;> simp only [h3] at hr
    · rw [← hr] at hj; exact absurd hj (by simp)
    rcases h4 : findOrder s oid with _ | o <;> simp only [h4] at hr
    · rw [← hr] at hj; exact absurd hj (by simp)
    by_cases h5 : o.status ≠ .pending
    · rw [if_pos h5] at hr; rw [← hr] at hj; exact absurd hj (by simp)
    rw [if_neg h5] at hr
    by_cases h6 : hasApplied s oid uid
    · rw [if_pos h6] at hr; rw [← hr] at hj; exact absurd hj (by simp)
    rw [if_neg h6] at hr
    by_cases h7 : countApps s oid ≥ 4
    · rw [if_pos h7] at hr; rw [← hr] at hj; exact absurd hj (by simp)
    rw [if_neg h7] at hr
    refine ⟨e, sq, pid, rfl, h2, h3, ⟨o, rfl, not_not.mp h5⟩, by simpa using h6,
      by omega, ?_⟩
    rw [← hr]
  exact hmain (join_order s uid oid) rfl h

/-- Looking a key up after updating the records with that key. -/
lemma find?_mapWhere_self {α : Type} (key : α → Nat) (k : Nat) (g : α → α)
    (hg : ∀ a, key (g a) = key a) (l : List α) (a : α)
    (h : l.find? (fun x => key x == k) = some a) :
    (mapWhere (fun x => key x == k) g l).find? (fun x => key x == k) = some (g a) := by
  have hk := List.find?_some h
  rw [find?_mapWhere _ _ _ _ (fun x => by simp [hg]), h]
  simp [show (key a == k) = true by simpa using hk]
  intro hne
  exact absurd (by simpa using hk) hne

/-- Looking a key up after updating records selected by any predicate. -/
lemma find?_mapWhere_other {α : Type} (key : α → Nat) (k k' : Nat) (g : α → α)
    (hg : ∀ a, key (g a) = key a) (l : List α) :
    (mapWhere (fun x => key x == k') g l).find? (fun x => key x == k) =
      (l.find? (fun x => key x == k)).map
        (fun a => if key a == k' then g a else a) :=
  find?_mapWhere _ _ _ _ (fun x => by simp [hg])

/-- No operation ever pushes the live application count of an order
above 4. -/
lemma applyOp_countApps_le (s : Store) (oid : Nat) (op : Op)
    (h : countApps s oid ≤ 4) : countApps (applyOp s op) oid ≤ 4 := by
  have hfil : ∀ (l : List Application) (p : Application → Bool),
      ((l.filter p).filter (fun a => a.order_id == oid)).length ≤
        (l.filter (fun a => a.order_id == oid)).length :=
    fun l p => ((l.filter_sublist).filter _).length_le
  have hcnt : ∀ s' : Store, countApps s' oid =
      (s'.applications.filter (fun a => a.order_id == oid)).length := fun _ => rfl
  cases op with
  | join uid oid' =>
    by_cases hj : (join_order s uid oid').1 = .joined
    · obtain ⟨e, sq, pid, -, -, -, -, -, hlt, happ⟩ := join_order_joined s uid oid' hj
      show countApps (join_order s uid oid').2 oid ≤ 4
      rw [hcnt, happ, List.filter_append, List.length_append]
      rw [hcnt] at h
      by_cases hoo : oid' = oid
      · subst hoo
        rw [hcnt] at hlt
        simp only [List.filter_cons, List.filter_nil]
        simp only [beq_self_eq_true, if_pos]
        simp only [List.length_cons, List.length_nil]
        omega
      · have : ((oid' : Nat) == oid) = false := by simp [hoo]
        simp only [List.filter_cons, List.filter_nil, this]
        simp only [Bool.false_eq_true, if_false, List.length_nil]
        omega
    · show countApps (join_order s uid oid').2 oid ≤ 4
      rw [join_order_not_joined s uid oid' hj]
      exact h
  | start uid oid' =>
    show countApps (start_order s uid oid').2 oid ≤ 4
    rcases start_order_applications s uid oid' with hc | hc <;> rw [hcnt, hc]
    · exact h
    · exact le_trans (hfil _ _) h
  | cancel oid' =>
    show countApps (cancel_order s oid').2 oid ≤ 4
    rcases cancel_order_applications s oid' with hc | hc <;> rw [hcnt, hc]
    · exact h
    · exact le_trans (hfil _ _) h
  | complete uid oid' now =>
    show countApps (process_complete_order s uid oid' now).2 oid ≤ 4
    rw [hcnt, process_complete_order_applications]
    exact h
  | payout uid oid' =>
    show countApps (process_payout_request s uid oid').2 oid ≤ 4
    rw [hcnt, process_payout_request_applications]
    exact h
  | rate uid oid' stars =>
    show countApps (rate_order_callback s uid oid' stars).2 oid ≤ 4
    rw [hcnt, rate_order_callback_applications]
    exact h

/-- `process_complete_order` on its two interesting branches: a
non-`in_progress` order is reported already completed with no state
change; an `in_progress` order is marked completed at `now`. -/
lemma process_complete_order_spec (s : Store) (uid oid : Nat) (now : Int)
    (e : Escort) (o : Order)
    (h1 : findEscort s uid = some e) (h2 : findOrder s oid = some o) :
    (o.status ≠ .inProgress →
      process_complete_order s uid oid now = (.orderAlreadyCompleted, s)) ∧
    (o.status = .inProgress →
      process_complete_order s uid oid now = (.done,
        { s with orders := (mapWhere (fun o' => o'.order_id == oid)
            (fun o' => { o' with status := .completed, completed_at := some now })
            s.orders) })) := by
  constructor <;> intro hst <;> simp only [process_complete_order, h1, h2]
  · rw [if_pos hst]
  · rw [if_neg (by simp [hst])]

/-- `process_payout_request` on its success branch: the commission is
recomputed as `amount * 0.2`, the payout `amount - commission` is
inserted and credited, and the stored `commission_amount` is
overwritten. -/
lemma process_payout_request_spec (s : Store) (uid oid : Nat)
    (e : Escort) (o : Order)
    (h1 : findEscort s uid = some e) (h2 : findOrder s oid = some o)
    (h3 : o.status = .completed) (h4 : hasAssignment s oid uid = true)
    (h5 : paysFor s oid uid = false) :
    process_payout_request s uid oid = (.paid,
      { s with
        payouts := s.payouts ++ [⟨oid, uid, o.amount - o.amount * (1/5)⟩],
        escorts := (mapWhere (fun e' => e'.escort_id == uid)
          (fun e' => { e' with
            balance := e'.balance + (o.amount - o.amount * (1/5)) }) s.escorts),
        orders := (mapWhere (fun o' => o'.order_id == oid)
          (fun o' => { o' with commission_amount := o.amount * (1/5) }) s.orders) }) := by
  simp only [process_payout_request, h1, h2]
  rw [if_neg (by simp [h3]), if_neg (by simp [h4]), if_neg (by simp [h5])]

/-- The `alreadyPaidOut` branch of `process_payout_request`: a recorded
payout for the pair blocks the request and leaves the store unchanged. -/
lemma process_payout_request_already (s : Store) (uid oid : Nat)
    (e : Escort) (o : Order)
    (h1 : findEscort s uid = some e) (h2 : findOrder s oid = some o)
    (h3 : o.status = .completed) (h4 : hasAssignment s oid uid = true)
    (h5 : paysFor s oid uid = true) :
    process_payout_request s uid oid = (.alreadyPaidOut, s) := by
  simp only [process_payout_request, h1, h2]
  rw [if_neg (by simp [h3]), if_neg (by simp [h4]), if_pos (by simp [h5])]

/-- Bumping a completed-order counter never changes a PUBG id. -/
lemma pubgOf_bumpCompleted (es : List Escort) (i j : Nat) :
    pubgOf (bumpCompleted es i) j = pubgOf es j := by
  unfold pubgOf bumpCompleted
  rw [find?_mapWhere _ _ _ _ (fun e => by simp)]
  cases h : es.find? (fun e => e.escort_id == j) with
  | none => rfl
  | some a =>
    simp only [Option.map, Option.bind]
    split <;> rfl

/-- The escort component of the `start_order` loop is the iterated
counter bump. -/
lemma foldl_startApply_fst (l : List Application) (es : List Escort)
    (asg : List Assignment) (oid : Nat) :
    (l.foldl (startApply oid) (es, asg)).1 =
      l.foldl (fun es' ap => bumpCompleted es' ap.escort_id) es := by
  induction l generalizing es asg with
  | nil => rfl
  | cons a t ih =>
    simp only [List.foldl_cons, startApply]
    exact ih _ _

/-- The assignment component of the `start_order` loop: one row per
valid application, whose PUBG id is the escort's current one (counter
bumps never touch it). -/
lemma foldl_startApply_snd (l : List Application) (es : List Escort)
    (asg : List Assignment) (oid : Nat) :
    (l.foldl (startApply oid) (es, asg)).2 =
      asg ++ l.map (fun ap => ⟨oid, ap.escort_id, pubgOf es ap.escort_id⟩) := by
  induction l generalizing es asg with
  | nil => simp
  | cons a t ih =>
    simp only [List.foldl_cons, startApply, List.map_cons]
    rw [ih]
    simp [pubgOf_bumpCompleted]

/-- Effect of one counter bump on a `completed_orders` lookup. -/
lemma completedOf_bumpCompleted (es : List Escort) (i j : Nat) :
    completedOf (bumpCompleted es i) j =
      (completedOf es j).map (fun c => c + if j == i then 1 else 0) := by
  unfold completedOf bumpCompleted
  rw [find?_mapWhere _ _ _ _ (fun e => by simp)]
  cases h : es.find? (fun e => e.escort_id == j) with
  | none => rfl
  | some a =>
    have ha : a.escort_id = j := by simpa using List.find?_some h
    by_cases hji : j = i <;> simp [ha, hji]

/-- Iterated counter bumps add the multiplicity of the worker in the
application list to that worker's `completed_orders`. -/
lemma completedOf_foldl_bump (l : List Application) (es : List Escort) (j : Nat) :
    completedOf (l.foldl (fun es' ap => bumpCompleted es' ap.escort_id) es) j =
      (completedOf es j).map
        (fun c => c + l.countP (fun ap => ap.escort_id == j)) := by
  induction l generalizing es with
  | nil => cases h : completedOf es j <;> simp [h]
  | cons a t ih =>
    rw [List.foldl_cons, ih, completedOf_bumpCompleted]
    cases h : completedOf es j with
    | none => simp [h]
    | some c =>
      simp only [h, List.countP_cons]
      by_cases hji : j = a.escort_id <;> simp [hji] <;> omega

/-- The success branch of `start_order`, fully characterized. -/
lemma start_order_spec (s : Store) (uid oid : Nat) (e : Escort) (sq : Nat)
    (o : Order) (a : Application) (rest : List Application)
    (h1 : findEscort s uid = some e) (h2 : e.squad_id = some sq)
    (h3 : findOrder s oid = some o) (h4 : o.status = .pending)
    (h5 : appsOf s oid = a :: rest)
    (h6 : ¬((a :: rest).length < 2 ∨ (a :: rest).length > 4))
    (h7 : ¬(((a :: rest).filter (fun ap => ap.squad_id == a.squad_id)).length < 2)) :
    start_order s uid oid = (.started,
      { s with
        escorts := (((a :: rest).filter (fun ap => ap.squad_id == a.squad_id)).foldl
          (fun es' ap => bumpCompleted es' ap.escort_id) s.escorts),
        assignments := (s.assignments ++
          ((a :: rest).filter (fun ap => ap.squad_id == a.squad_id)).map
            (fun ap => ⟨oid, ap.escort_id, pubgOf s.escorts ap.escort_id⟩)),
        orders := (mapWhere (fun o' => o'.order_id == oid)
          (fun o' =>
            { o' with
              status := .inProgress,
              squad_id := some a.squad_id,
              commission_amount := o.amount * (1/5) }) s.orders),
        applications :=
          s.applications.filter (fun ap => !(ap.order_id == oid)) }) := by
  simp only [start_order, h1, h2, h3, h5]
  rw [if_neg (by simp [h4]), if_neg h6, if_neg h7]
  simp only [foldl_startApply_fst, foldl_startApply_snd]

/-- The InsufficientSquadMembers branch of `start_order`: the filtered
winning-squad applications number fewer than 2, nothing changes. -/
lemma start_order_insufficient (s : Store) (uid oid : Nat) (e : Escort) (sq : Nat)
    (o : Order) (a : Application) (rest : List Application)
    (h1 : findEscort s uid = some e) (h2 : e.squad_id = some sq)
    (h3 : findOrder s oid = some o) (h4 : o.status = .pending)
    (h5 : appsOf s oid = a :: rest)
    (h6 : ¬((a :: rest).length < 2 ∨ (a :: rest).length > 4))
    (h7 : ((a :: rest).filter (fun ap => ap.squad_id == a.squad_id)).length < 2) :
    start_order s uid oid = (.insufficientSquadMembers, s) := by
  simp only [start_order, h1, h2, h3, h5]
  rw [if_neg (by simp [h4]), if_neg h6, if_pos h7]

/-- C1: the `join_order` callback runs the allocation engine for a
permanently banned worker.  Worker D is permanently banned
(`is_banned = 1`, `ban_until = NULL`), so `check_access` denies D at
every time — yet `join_order` performs no access check: D's apply
succeeds and an Application row is created.  This contradicts the claim
that the gate denies the call before the engine runs. -/
theorem banned_worker_apply_not_gated :
    wD.is_banned = true ∧
    (∀ (now : Int) (init : Bool), check_access wD now init = false) ∧
    (join_order demoStore 4 1).1 = JoinResult.joined ∧
    (join_order demoStore 4 1).2.applications = [⟨1, 4, 1, "pD"⟩] :=
  ⟨rfl, fun _ _ => rfl, rfl, rfl⟩

/-- C2: `rate_order_callback` does not test `rating = 0`.  Order 1 is
already rated 3 in `demoRated`, yet a second rate with 5 stars succeeds:
the order's rating is overwritten to 5, and every assignee's reputation,
rating sum and rating count — and the squad's — are bumped again.  This
contradicts the claim that a second rate returns AlreadyRated and leaves
the aggregates unchanged. -/
theorem second_rate_mutates_aggregates :
    (findOrder demoRated 1).map Order.rating = some 3 ∧
    (rate_order_callback demoRated 2 1 5).1 = RateResult.rated ∧
    (findOrder (rate_order_callback demoRated 2 1 5).2 1).map Order.rating =
      some 5 ∧
    (findEscort demoRated 1).map Escort.reputation = some 3 ∧
    (findEscort (rate_order_callback demoRated 2 1 5).2 1).map Escort.reputation =
      some 8 ∧
    (findEscort demoRated 1).map Escort.rating_count = some 1 ∧
    (findEscort (rate_order_callback demoRated 2 1 5).2 1).map Escort.rating_count =
      some 2 ∧
    demoRated.squads.map Squad.rating_count = [1, 0] ∧
    (rate_order_callback demoRated 2 1 5).2.squads.map Squad.rating_count = [2, 0] :=
  ⟨rfl, rfl, rfl, rfl, rfl, rfl, rfl, rfl, rfl⟩

/-- C3: neither complete handler checks that the caller holds an
Assignment.  Worker C (id 3) has no `order_escorts` row on the
in-progress order 1, yet C's complete call succeeds and marks the order
completed.  This contradicts the claim that a worker with no Assignment
on the order cannot complete it. -/
theorem complete_without_assignment_succeeds :
    hasAssignment demoStarted 1 3 = false ∧
    (process_complete_order demoStarted 3 1 77).1 = CompleteResult.done ∧
    (findOrder (process_complete_order demoStarted 3 1 77).2 1).map Order.status =
      some OrderStatus.completed :=
  ⟨rfl, rfl, rfl⟩

/-- C10: both ban actions set the `is_banned` flag, and `check_access`
tests the flag first and independently of the clock, so a banned worker
is denied at every `now` — in particular at any time after `ban_until`
has passed; a time-limited ban never expires on its own. -/
theorem banned_flag_denies_forever (e : Escort) (t now : Int) (init : Bool) :
    (process_ban_duration e t).is_banned = true ∧
    (process_ban_permanent e).is_banned = true ∧
    check_access (process_ban_duration e t) now init = false ∧
    check_access (process_ban_permanent e) now init = false :=
  ⟨rfl, rfl, rfl, rfl⟩

/-- C9: a repeated complete on an already-completed order returns
OrderAlreadyCompleted and leaves the whole store — in particular
`completed_at` — unchanged; a successful complete on an in-progress
order sets `status = completed` and `completed_at = now`. -/
theorem complete_idempotent (s : Store) (uid oid : Nat) (now : Int)
    (e : Escort) (o : Order)
    (h1 : findEscort s uid = some e) (h2 : findOrder s oid = some o) :
    (o.status = .completed →
      process_complete_order s uid oid now = (.orderAlreadyCompleted, s)) ∧
    (o.status = .inProgress →
      (process_complete_order s uid oid now).1 = .done ∧
      findOrder (process_complete_order s uid oid now).2 oid =
        some { o with status := .completed, completed_at := some now }) := by
  have hs := process_complete_order_spec s uid oid now e o h1 h2
  constructor
  · intro hc
    exact hs.1 (by simp [hc])
  · intro hip
    rw [hs.2 hip]
    refine ⟨rfl, ?_⟩
    have h2' : s.orders.find? (fun x => x.order_id == oid) = some o := h2
    exact find?_mapWhere_self Order.order_id oid
      (fun o' => { o' with status := .completed, completed_at := some now })
      (fun _ => rfl) s.orders o h2'

/-- Witness for C9, Scenario C: A completed order 1 at time 50; B's
second complete returns OrderAlreadyCompleted, the store and the stored
`completed_at = 50` are unchanged. -/
theorem complete_idempotent_witness :
    process_complete_order demoCompleted 2 1 99 =
      (CompleteResult.orderAlreadyCompleted, demoCompleted) ∧
    (findOrder demoCompleted 1).map Order.completed_at = some (some 50) := by
  have h := complete_idempotent demoCompleted 2 1 99
    ⟨2, some 1, some "pB", 0, 0, 1, "B", 0, 0, false, none, none, true⟩
    ⟨1, 1000, 1000 * (1/5), .completed, some 1, some 50, 0⟩ rfl rfl
  exact ⟨h.1 rfl, rfl⟩

/-- C4 (amended): `process_payout_request` recomputes the commission
from the fixed 20% rate — `commission = amount * 0.2`, payout
`= amount - commission` — ignoring the order's stored
`commission_amount`, which it overwrites with `amount * 0.2`; the payout
row is inserted and the payout credited to the worker's balance. -/
theorem payout_recomputed_from_rate (s : Store) (uid oid : Nat)
    (e : Escort) (o : Order)
    (h1 : findEscort s uid = some e) (h2 : findOrder s oid = some o)
    (h3 : o.status = .completed) (h4 : hasAssignment s oid uid = true)
    (h5 : paysFor s oid uid = false) :
    (process_payout_request s uid oid).1 = .paid ∧
    (process_payout_request s uid oid).2.payouts =
      s.payouts ++ [⟨oid, uid, o.amount - o.amount * (1/5)⟩] ∧
    findEscort (process_payout_request s uid oid).2 uid =
      some { e with balance := e.balance + (o.amount - o.amount * (1/5)) } ∧
    findOrder (process_payout_request s uid oid).2 oid =
      some { o with commission_amount := o.amount * (1/5) } := by
  have hs := process_payout_request_spec s uid oid e o h1 h2 h3 h4 h5
  rw [hs]
  refine ⟨rfl, rfl, ?_, ?_⟩
  · have h1' : s.escorts.find? (fun x => x.escort_id == uid) = some e := h1
    exact find?_mapWhere_self Escort.escort_id uid
      (fun e' => { e' with balance := e'.balance + (o.amount - o.amount * (1/5)) })
      (fun _ => rfl) s.escorts e h1'
  · have h2' : s.orders.find? (fun x => x.order_id == oid) = some o := h2
    exact find?_mapWhere_self Order.order_id oid
      (fun o' => { o' with commission_amount := o.amount * (1/5) })
      (fun _ => rfl) s.orders o h2'

/-- Counterexample to C4 as stated: in `oddCommissionStore` order 1 has
amount 1000 but stored commission 300, so the claim predicts a credited
payout of 700; the code credits 800 = amount − 0.20 × amount and
overwrites the stored commission with 200. -/
theorem payout_ignores_stored_commission_cex :
    (findOrder oddCommissionStore 1).map Order.commission_amount = some 300 ∧
    (findOrder oddCommissionStore 1).map Order.amount = some 1000 ∧
    (process_payout_request oddCommissionStore 1 1).1 = PayoutResult.paid ∧
    (findEscort (process_payout_request oddCommissionStore 1 1).2 1).map
      Escort.balance = some 800 ∧
    ¬((findEscort (process_payout_request oddCommissionStore 1 1).2 1).map
      Escort.balance = some 700) ∧
    (findOrder (process_payout_request oddCommissionStore 1 1).2 1).map
      Order.commission_amount = some 200 := by
  have h := process_payout_request_spec oddCommissionStore 1 1 wA
    ⟨1, 1000, 300, .completed, some 1, some 50, 0⟩ rfl rfl rfl rfl rfl
  have hb : (findEscort (process_payout_request oddCommissionStore 1 1).2 1).map
      Escort.balance = some ((0 : ℚ) + (1000 - 1000 * (1/5))) := by
    rw [h]
    exact rfl
  have hc : (findOrder (process_payout_request oddCommissionStore 1 1).2 1).map
      Order.commission_amount = some ((1000 : ℚ) * (1/5)) := by
    rw [h]
    exact rfl
  refine ⟨rfl, rfl, by rw [h], ?_, ?_, ?_⟩
  · rw [hb]
    norm_num
  · rw [hb]
    simp
    norm_num
  · rw [hc]
    norm_num

/-- Witness for C4's amended theorem at `oddCommissionStore`. -/
theorem payout_recomputed_from_rate_witness :
    (process_payout_request oddCommissionStore 1 1).1 = PayoutResult.paid ∧
    (process_payout_request oddCommissionStore 1 1).2.payouts =
      [⟨1, 1, (1000 : ℚ) - 1000 * (1/5)⟩] := by
  have h := payout_recomputed_from_rate oddCommissionStore 1 1 wA
    ⟨1, 1000, 300, .completed, some 1, some 50, 0⟩ rfl rfl rfl rfl rfl
  exact ⟨h.1, by simpa using h.2.1⟩

/-- C5 (amended): the double-payout guard works per (order, worker) —
after a successful `request_payout` a second request by the same worker
returns AlreadyPaidOut with the store unchanged, and the first request
adds exactly one payout of `0.80 × amount` to the order's payout sum and
to the worker's balance.  (The sum over all assignees is therefore
`0.80 × amount` per paying assignee, which exceeds the order's amount
once two or more assignees collect.) -/
theorem payout_exactly_once_per_worker (s : Store) (uid oid : Nat)
    (e : Escort) (o : Order)
    (h1 : findEscort s uid = some e) (h2 : findOrder s oid = some o)
    (h3 : o.status = .completed) (h4 : hasAssignment s oid uid = true)
    (h5 : paysFor s oid uid = false) :
    (process_payout_request s uid oid).1 = .paid ∧
    process_payout_request (process_payout_request s uid oid).2 uid oid =
      (.alreadyPaidOut, (process_payout_request s uid oid).2) ∧
    sumPayouts (process_payout_request s uid oid).2 oid =
      sumPayouts s oid + (o.amount - o.amount * (1/5)) ∧
    findEscort (process_payout_request s uid oid).2 uid =
      some { e with balance := e.balance + (o.amount - o.amount * (1/5)) } := by
  have hs := process_payout_request_spec s uid oid e o h1 h2 h3 h4 h5
  have h1' : s.escorts.find? (fun x => x.escort_id == uid) = some e := h1
  have h2' : s.orders.find? (fun x => x.order_id == oid) = some o := h2
  have hesc : findEscort (process_payout_request s uid oid).2 uid =
      some { e with balance := e.balance + (o.amount - o.amount * (1/5)) } := by
    rw [hs]
    exact find?_mapWhere_self Escort.escort_id uid
      (fun e' => { e' with balance := e'.balance + (o.amount - o.amount * (1/5)) })
      (fun _ => rfl) s.escorts e h1'
  have hord : findOrder (process_payout_request s uid oid).2 oid =
      some { o with commission_amount := o.amount * (1/5) } := by
    rw [hs]
    exact find?_mapWhere_self Order.order_id oid
      (fun o' => { o' with commission_amount := o.amount * (1/5) })
      (fun _ => rfl) s.orders o h2'
  refine ⟨by rw [hs], ?_, ?_, hesc⟩
  · have hass : hasAssignment (process_payout_request s uid oid).2 oid uid = true := by
      rw [hs]; exact h4
    have hpay : paysFor (process_payout_request s uid oid).2 oid uid = true := by
      rw [hs]
      unfold paysFor
      simp
    exact process_payout_request_already _ uid oid _ _ hesc hord h3 hass hpay
  · rw [hs]
    unfold sumPayouts
    rw [List.filter_append]
    simp

/-- Counterexample to C5 as stated: after both assignees of order 1
(amount 1000) collect their payout, the recorded payout sum is 1600,
which is neither ≤ the order's amount nor equal once only one assignee
has collected. -/
theorem payout_sum_exceeds_amount_cex :
    (findOrder demoPaidB 1).map Order.amount = some 1000 ∧
    sumPayouts demoPaidB 1 = 1600 ∧
    ¬(sumPayouts demoPaidB 1 ≤ 1000) := by
  have hsum : sumPayouts demoPaidB 1 =
      [(1000 : ℚ) - 1000 * (1/5), (1000 : ℚ) - 1000 * (1/5)].sum := rfl
  refine ⟨rfl, ?_, ?_⟩ <;> rw [hsum] <;> simp <;> norm_num

/-- Witness for C5's amended theorem: Scenario D on the demo pipeline —
A's first request pays, A's second request returns AlreadyPaidOut with
the store unchanged. -/
theorem payout_exactly_once_per_worker_witness :
    (process_payout_request demoCompleted 1 1).1 = PayoutResult.paid ∧
    process_payout_request demoPaidA 1 1 =
      (PayoutResult.alreadyPaidOut, demoPaidA) := by
  have h := payout_exactly_once_per_worker demoCompleted 1 1
    ⟨1, some 1, some "pA", 0, 0, 1, "A", 0, 0, false, none, none, true⟩
    ⟨1, 1000, 1000 * (1/5), .completed, some 1, some 50, 0⟩ rfl rfl rfl rfl rfl
  exact ⟨h.1, h.2.1⟩

/-- C6: the winning squad is the squad id snapshot of the
chronologically first application (the list is kept in rowid insertion
order, SQLite's monotonic sequence assigned at insert time); with at
least 2 same-squad applications the order is assigned that squad, and
with fewer than 2 the call fails InsufficientSquadMembers leaving the
order pending.  Replay determinism follows because `start_order` is a
function of the store reached by the ordered apply sequence. -/
theorem start_winner_first_application (s : Store) (uid oid : Nat)
    (e : Escort) (sq : Nat) (o : Order) (a : Application) (rest : List Application)
    (h1 : findEscort s uid = some e) (h2 : e.squad_id = some sq)
    (h3 : findOrder s oid = some o) (h4 : o.status = .pending)
    (h5 : appsOf s oid = a :: rest)
    (h6 : 2 ≤ (a :: rest).length) (h7 : (a :: rest).length ≤ 4) :
    winningSquad s oid = some a.squad_id ∧
    (2 ≤ ((a :: rest).filter (fun ap => ap.squad_id == a.squad_id)).length →
      (start_order s uid oid).1 = .started ∧
      (findOrder (start_order s uid oid).2 oid).map Order.squad_id =
        some (some a.squad_id)) ∧
    (((a :: rest).filter (fun ap => ap.squad_id == a.squad_id)).length < 2 →
      start_order s uid oid = (.insufficientSquadMembers, s) ∧
      (findOrder (start_order s uid oid).2 oid).map Order.status =
        some OrderStatus.pending) := by
  refine ⟨?_, ?_, ?_⟩
  · unfold winningSquad
    rw [h5]
  · intro hv
    have hspec := start_order_spec s uid oid e sq o a rest h1 h2 h3 h4 h5
      (by omega) (by omega)
    have h3' : s.orders.find? (fun x => x.order_id == oid) = some o := h3
    have hford : findOrder (start_order s uid oid).2 oid =
        some { o with
          status := .inProgress,
          squad_id := some a.squad_id,
          commission_amount := o.amount * (1/5) } := by
      rw [hspec]
      exact find?_mapWhere_self Order.order_id oid
        (fun o' =>
          { o' with
            status := .inProgress,
            squad_id := some a.squad_id,
            commission_amount := o.amount * (1/5) })
        (fun _ => rfl) s.orders o h3'
    refine ⟨by rw [hspec], ?_⟩
    rw [hford]
    rfl
  · intro hv
    have hins := start_order_insufficient s uid oid e sq o a rest h1 h2 h3 h4 h5
      (by omega) hv
    rw [hins]
    exact ⟨rfl, by simp [h3, h4]⟩

/-- Witness for C6 on the demo pipeline: A, B (squad 1) and C (squad 2)
applied in that order; the first application's squad 1 wins and is
assigned. -/
theorem start_winner_first_application_witness :
    winningSquad demoApplied 1 = some 1 ∧
    (start_order demoApplied 1 1).1 = StartResult.started ∧
    (findOrder (start_order demoApplied 1 1).2 1).map Order.squad_id =
      some (some 1) := by
  have h := start_winner_first_application demoApplied 1 1
    ⟨1, some 1, some "pA", 0, 0, 0, "A", 0, 0, false, none, none, true⟩ 1
    ⟨1, 1000, 0, .pending, none, none, 0⟩
    ⟨1, 1, 1, "pA"⟩ [⟨1, 2, 1, "pB"⟩, ⟨1, 3, 2, "pC"⟩]
    rfl rfl rfl rfl rfl (by decide) (by decide)
  have hsucc := h.2.1 (by decide)
  exact ⟨h.1, hsucc.1, hsucc.2⟩

/-- C7: on success `start_order` atomically creates one Assignment per
valid (winning-squad) application snapshotting the worker and their
current game id, increments each such worker's completed-order counter
by their multiplicity among the valid applications, sets
`commission_amount = amount * 0.20`, `status = in_progress` and the
assigned squad to the winner, and deletes every application of the
order — winning- and losing-squad alike. -/
theorem start_success_effects (s : Store) (uid oid : Nat) (e : Escort)
    (sq : Nat) (o : Order) (a : Application) (rest : List Application)
    (h1 : findEscort s uid = some e) (h2 : e.squad_id = some sq)
    (h3 : findOrder s oid = some o) (h4 : o.status = .pending)
    (h5 : appsOf s oid = a :: rest)
    (h6 : 2 ≤ (a :: rest).length) (h7 : (a :: rest).length ≤ 4)
    (h8 : 2 ≤ ((a :: rest).filter (fun ap => ap.squad_id == a.squad_id)).length) :
    (start_order s uid oid).1 = .started ∧
    findOrder (start_order s uid oid).2 oid =
      some { o with status := .inProgress, squad_id := some a.squad_id,
                    commission_amount := o.amount * (1/5) } ∧
    (start_order s uid oid).2.assignments =
      s.assignments ++
        ((a :: rest).filter (fun ap => ap.squad_id == a.squad_id)).map
          (fun ap => ⟨oid, ap.escort_id, pubgOf s.escorts ap.escort_id⟩) ∧
    (∀ j, completedOf (start_order s uid oid).2.escorts j =
      (completedOf s.escorts j).map (fun c => c +
        ((a :: rest).filter (fun ap => ap.squad_id == a.squad_id)).countP
          (fun ap => ap.escort_id == j))) ∧
    (start_order s uid oid).2.applications =
      s.applications.filter (fun ap => !(ap.order_id == oid)) ∧
    countApps (start_order s uid oid).2 oid = 0 := by
  have hspec := start_order_spec s uid oid e sq o a rest h1 h2 h3 h4 h5
    (by omega) (by omega)
  have h3' : s.orders.find? (fun x => x.order_id == oid) = some o := h3
  refine ⟨by rw [hspec], ?_, by rw [hspec], ?_, by rw [hspec], ?_⟩
  · rw [hspec]
    exact find?_mapWhere_self Order.order_id oid
      (fun o' =>
        { o' with
          status := .inProgress,
          squad_id := some a.squad_id,
          commission_amount := o.amount * (1/5) })
      (fun _ => rfl) s.orders o h3'
  · intro j
    rw [hspec]
    exact completedOf_foldl_bump _ _ _
  · rw [hspec]
    unfold countApps appsOf
    rw [List.filter_filter]
    have hfalse : ∀ ap : Application,
        ((ap.order_id == oid) && !(ap.order_id == oid)) = false := by
      intro ap
      cases hb : (ap.order_id == oid) <;> simp [hb]
    simp [hfalse]

/-- Witness for C7, Scenario A: order 1 (amount 1000), applicants A, B
from squad 1 and C from squad 2 — assignees are exactly A and B,
commission is 200 (= 1000 × 0.20), both counters bumped, C excluded,
application pool emptied. -/
theorem start_success_effects_witness :
    (start_order demoApplied 1 1).1 = StartResult.started ∧
    findOrder (start_order demoApplied 1 1).2 1 =
      some ⟨1, 1000, 1000 * (1/5), .inProgress, some 1, none, 0⟩ ∧
    (start_order demoApplied 1 1).2.assignments =
      [⟨1, 1, some "pA"⟩, ⟨1, 2, some "pB"⟩] ∧
    completedOf (start_order demoApplied 1 1).2.escorts 1 = some 1 ∧
    completedOf (start_order demoApplied 1 1).2.escorts 3 = some 0 ∧
    countApps (start_order demoApplied 1 1).2 1 = 0 := by
  have h := start_success_effects demoApplied 1 1
    ⟨1, some 1, some "pA", 0, 0, 0, "A", 0, 0, false, none, none, true⟩ 1
    ⟨1, 1000, 0, .pending, none, none, 0⟩
    ⟨1, 1, 1, "pA"⟩ [⟨1, 2, 1, "pB"⟩, ⟨1, 3, 2, "pC"⟩]
    rfl rfl rfl rfl rfl (by decide) (by decide) (by decide)
  refine ⟨h.1, ?_, ?_, ?_, ?_, h.2.2.2.2.2⟩
  · rw [h.2.1]
  · rw [h.2.2.1]
    exact rfl
  · rw [h.2.2.2.1 1]
    exact rfl
  · rw [h.2.2.2.1 3]
    exact rfl

/-- C8: `join_order` inserts an application only when the order is
pending, the worker exists with a squad and a game id, has not yet
applied, and the live count is below 4 — on any failed precondition the
store is unchanged — and consequently no engine operation ever pushes an
order's live application count above 4. -/
theorem apply_preconditions_and_pool_cap (s : Store) (oid : Nat)
    (hcap : countApps s oid ≤ 4) :
    (∀ op : Op, countApps (applyOp s op) oid ≤ 4) ∧
    (∀ uid, (join_order s uid oid).1 ≠ .joined → (join_order s uid oid).2 = s) ∧
    (∀ uid, (join_order s uid oid).1 = .joined →
      ∃ e sq pid, findEscort s uid = some e ∧ e.pubg_id = some pid ∧
        e.squad_id = some sq ∧
        (∃ o, findOrder s oid = some o ∧ o.status = .pending) ∧
        hasApplied s oid uid = false ∧ countApps s oid < 4 ∧
        (join_order s uid oid).2.applications =
          s.applications ++ [⟨oid, e.escort_id, sq, pid⟩]) :=
  ⟨fun op => applyOp_countApps_le s oid op hcap,
   fun uid => join_order_not_joined s uid oid,
   fun uid => join_order_joined s uid oid⟩

/-- Witness for C8 on the demo pipeline with 3 live applications:
another join keeps the count within the cap, and a join by an
unregistered worker leaves the store unchanged. -/
theorem apply_preconditions_and_pool_cap_witness :
    countApps demoApplied 1 ≤ 4 ∧
    countApps (applyOp demoApplied (Op.join 4 1)) 1 ≤ 4 ∧
    (join_order demoApplied 5 1).2 = demoApplied := by
  have h := apply_preconditions_and_pool_cap demoApplied 1 (by decide)
  exact ⟨by decide, h.1 (Op.join 4 1), h.2.1 5 (by decide)⟩

end MemoBot
